import Mathlib

/-!
Verification of the mediAI-chatbot social-graph / feed / authentication core.

Shallow embedding of `src/auth.py`, `src/models.py` and the route handlers of
`src/app.py` (edit_post, delete_post, consultants_page, like_post,
comment_post, follow_consultant).  The SQLAlchemy store is modelled as lists
of records; `Query.first()` is `List.find?`, `Query.filter(...).count()` is
`List.countP`, deleting the row returned by `first()` is `List.eraseP`,
`order_by(x.desc())` is `List.mergeSort` with a descending comparison, and
SQL autoincrement primary keys are drawn from an explicit `next_id` counter.
`datetime.utcnow()` is passed in as an explicit `now : Nat` argument.
The external SHA-256 digest from `hashlib` is an explicit function parameter
`sha256hex : String → String`; Python `str.strip()` and `str.lower()` are
modelled by `stripStr` and `lowerStr` below (ASCII case folding, whitespace
per `Char.isWhitespace` — the claims only exercise ASCII data).
-/

/-- Python `str.strip()`: drop whitespace from both ends. -/
def stripStr (s : String) : String :=
  String.mk (((s.data.dropWhile Char.isWhitespace).reverse.dropWhile Char.isWhitespace).reverse)

/-- Python `str.lower()` (ASCII case folding). -/
def lowerStr (s : String) : String :=
  String.mk (s.data.map Char.toLower)

/-- Check that the character list `p` begins the character list `h`. -/
def startsWithCL : List Char → List Char → Bool
  | [], _ => true
  | _ :: _, [] => false
  | a :: p, b :: h => a == b && startsWithCL p h

/-- SQL LIKE pattern matching over case-folded character lists: `%` matches
any (possibly empty) sequence, `_` matches exactly one character, every
other pattern character matches itself.  No escape clause exists, because
the `ilike(f"%{...}%")` calls in `src/app.py` configure none, so wildcard
characters inside the interpolated user filter stay live. -/
def likeMatch : List Char → List Char → Bool
  | [], t => t.isEmpty
  | c :: ps, t =>
      if c == '%' then t.tails.any (fun s => likeMatch ps s)
      else
        match t with
        | [] => false
        | d :: ts => (if c == '_' then true else c == d) && likeMatch ps ts

/-- SQLAlchemy `column.ilike(f"%{pat}%")` as the database evaluates it:
case-fold both sides and match the pattern `%pat%`, with any `%`/`_` inside
`pat` still acting as wildcards. -/
def ilikeContains (hay pat : String) : Bool :=
  likeMatch ('%' :: (lowerStr pat).data ++ ['%']) (lowerStr hay).data

/-- Stated from the claim's words, for comparison with the source-modelled
`ilikeContains` (deliberately not a model of the code): `hay` contains `pat`
as a literal case-insensitive substring. -/
def specContainsCI (hay pat : String) : Bool :=
  (lowerStr hay).data.tails.any (fun s => startsWithCL (lowerStr pat).data s)

/-- Extension of a file name including the dot (model of `os.path.splitext(...)[1]`;
the claims never exercise the leading-dot corner cases of `splitext`). -/
def extOf (s : String) : String :=
  if s.data.contains '.' then
    String.mk ('.' :: (s.data.reverse.takeWhile (fun c => c != '.')).reverse)
  else ""

/-- Media classification of `edit_post` in `src/app.py`: extensions
.mp4/.mov/.avi/.webm give "video", anything else with a file gives "image". -/
def isVideoName (s : String) : Bool :=
  [".mp4", ".mov", ".avi", ".webm"].contains (lowerStr (extOf s))

/-- `users` table of `src/models.py`. -/
structure User where
  id : Nat
  email : String
  hashed_password : String
deriving DecidableEq

/-- `consultants` table of `src/models.py` (email not unique, bio nullable). -/
structure Consultant where
  id : Nat
  name : String
  email : String
  specialization : String
  bio : Option String
  media_path : Option String
  media_type : Option String
deriving DecidableEq

/-- `consultant_posts` table of `src/models.py`.  `content` is nullable in the
schema but every write path of `src/app.py` stores a string, so it is a
`String` here.  `timestamp` models the `DateTime` column as a Nat tick. -/
structure ConsultantPost where
  id : Nat
  consultant_id : Nat
  title : Option String
  content : String
  media_path : Option String
  media_type : Option String
  timestamp : Nat
deriving DecidableEq

/-- `likes` table of `src/models.py`.  `user_id` is null for anonymous actors;
`consultant_id` is nullable because `like_post` stores `None` when the
referenced post does not exist. -/
structure Like where
  id : Nat
  user_id : Option Nat
  consultant_id : Option Nat
  post_id : Nat
  timestamp : Nat
deriving DecidableEq

/-- `comments` table of `src/models.py`. -/
structure Comment where
  id : Nat
  user_id : Option Nat
  consultant_id : Option Nat
  post_id : Nat
  comment_text : String
  timestamp : Nat
deriving DecidableEq

/-- `followers` table of `src/models.py`. -/
structure Follower where
  id : Nat
  user_id : Option Nat
  consultant_id : Nat
  timestamp : Nat
deriving DecidableEq

/-- The persistence store: the five tables the claims touch, plus the
autoincrement counter shared for fresh primary keys. -/
structure DB where
  users : List User
  consultants : List Consultant
  posts : List ConsultantPost
  likes : List Like
  comments : List Comment
  followers : List Follower
  next_id : Nat
deriving DecidableEq

/-- Error taxonomy of the route handlers: HTTP 403 (`Forbidden`), the
redirect-to-register of a missing consultant session, and the registration
`ValueError` (spec name `DuplicateEmail`). -/
inductive Err where
  | redirectRegister
  | forbidden
  | duplicateEmail
deriving DecidableEq

/-- Result of `comment_post`: blank text is silently dropped, a missing post
raises HTTP 404 (`NotFound`), otherwise a Comment row is created. -/
inductive CommentOutcome where
  | dropped
  | notFound
  | created (c : Comment)
deriving DecidableEq

/-- Normalised email as computed in `src/auth.py`: `email.strip().lower()`. -/
def normEmail (email : String) : String :=
  lowerStr (stripStr email)

/-- `hash_password` of `src/auth.py`: strip, then SHA-256 hex digest
(the digest itself is the explicit parameter `sha256hex`). -/
def hash_password (sha256hex : String → String) (password : String) : String :=
  sha256hex (stripStr password)

/-- `verify_password` of `src/auth.py`: strips the candidate and compares
its hash with the stored hash. -/
def verify_password (sha256hex : String → String) (plain_password hashed_password : String) : Bool :=
  hash_password sha256hex (stripStr plain_password) == hashed_password

/-- `register_user` of `src/auth.py`: normalise the email, strip the
password, reject when a User with that email exists, else insert the new
User with the hashed password. -/
def register_user (sha256hex : String → String) (db : DB) (email password : String) :
    DB × Except Err User :=
  let email := normEmail email
  let password := stripStr password
  match db.users.find? (fun u => u.email == email) with
  | some _ => (db, Except.error Err.duplicateEmail)
  | none =>
      let hashed := hash_password sha256hex password
      let new_user : User := { id := db.next_id, email := email, hashed_password := hashed }
      ({ db with users := db.users ++ [new_user], next_id := db.next_id + 1 },
       Except.ok new_user)

/-- `login_user` of `src/auth.py`: look the User up by normalised email and
verify the password; `none` on any mismatch, user-not-found included. -/
def login_user (sha256hex : String → String) (db : DB) (email password : String) :
    Option User :=
  match db.users.find? (fun u => u.email == normEmail email) with
  | none => none
  | some user =>
      if verify_password sha256hex password user.hashed_password then some user else none

/-- Filter condition of `like_post`: `Like.post_id == post_id, Like.user_id == user_id`. -/
def likeKey (post_id : Nat) (user_id : Option Nat) : Like → Bool :=
  fun l => l.post_id == post_id && l.user_id == user_id

/-- Filter condition of `follow_consultant`:
`Follower.consultant_id == consultant_id, Follower.user_id == user_id`. -/
def followKey (consultant_id : Nat) (user_id : Option Nat) : Follower → Bool :=
  fun f => f.consultant_id == consultant_id && f.user_id == user_id

/-- Route `POST /post/{post_id}/like` of `src/app.py`: delete the existing
Like when one is found for (post, actor), else insert a new one whose
`consultant_id` is the post's owner when the post exists and null otherwise
(note: no 404 is ever raised here).  The returned Bool is the `liked` state
after the call. -/
def like_post (db : DB) (post_id : Nat) (user_id : Option Nat) (now : Nat) : DB × Bool :=
  match db.likes.find? (likeKey post_id user_id) with
  | some _ =>
      ({ db with likes := db.likes.eraseP (likeKey post_id user_id) }, false)
  | none =>
      let cid : Option Nat :=
        match db.posts.find? (fun p => p.id == post_id) with
        | some post => some post.consultant_id
        | none => none
      let new_like : Like :=
        { id := db.next_id, user_id := user_id, consultant_id := cid,
          post_id := post_id, timestamp := now }
      ({ db with likes := db.likes ++ [new_like], next_id := db.next_id + 1 }, true)

/-- Route `POST /consultant/{consultant_id}/follow` of `src/app.py`: same
toggle shape as `like_post`, keyed on (consultant, actor). -/
def follow_consultant (db : DB) (consultant_id : Nat) (user_id : Option Nat) (now : Nat) :
    DB × Bool :=
  match db.followers.find? (followKey consultant_id user_id) with
  | some _ =>
      ({ db with followers := db.followers.eraseP (followKey consultant_id user_id) }, false)
  | none =>
      let new_f : Follower :=
        { id := db.next_id, user_id := user_id, consultant_id := consultant_id,
          timestamp := now }
      ({ db with followers := db.followers ++ [new_f], next_id := db.next_id + 1 }, true)

/-- Route `POST /post/{post_id}/comment` of `src/app.py`: blank text is
dropped before anything is looked up; then 404 when the post is missing;
else a Comment carrying the post's owning consultant is inserted. -/
def comment_post (db : DB) (post_id : Nat) (user_id : Option Nat) (comment_text : String)
    (now : Nat) : DB × CommentOutcome :=
  if comment_text == "" || stripStr comment_text == "" then (db, CommentOutcome.dropped)
  else
    match db.posts.find? (fun p => p.id == post_id) with
    | none => (db, CommentOutcome.notFound)
    | some post =>
        let c : Comment :=
          { id := db.next_id, user_id := user_id, consultant_id := some post.consultant_id,
            post_id := post_id, comment_text := comment_text, timestamp := now }
        ({ db with comments := db.comments ++ [c], next_id := db.next_id + 1 },
         CommentOutcome.created c)

/-- Route `POST /edit_post` of `src/app.py`: redirect when no consultant
session, 403 when the post is missing or not owned by the caller; otherwise
replace the media when a file with a non-empty name was sent, then overwrite
the content and reset the timestamp to now, and update the row in place. -/
def edit_post (db : DB) (post_id : Nat) (session_cid : Option Nat) (new_bio : String)
    (new_media : Option String) (now : Nat) : DB × Except Err Unit :=
  match session_cid with
  | none => (db, Except.error Err.redirectRegister)
  | some consultant_id =>
      match db.posts.find? (fun p => p.id == post_id) with
      | none => (db, Except.error Err.forbidden)
      | some post =>
          if post.consultant_id ≠ consultant_id then (db, Except.error Err.forbidden)
          else
            let post1 :=
              match new_media with
              | none => post
              | some fname =>
                  if fname == "" then post
                  else { post with media_path := some fname,
                                   media_type := some (if isVideoName fname then "video" else "image") }
            let post2 := { post1 with content := new_bio, timestamp := now }
            ({ db with posts := db.posts.map (fun p => if p.id == post_id then post2 else p) },
             Except.ok ())

/-- Route `POST /delete_post` of `src/app.py`: redirect when no consultant
session, 403 when the post is missing or not owned by the caller; otherwise
delete the row; the `cascade="all, delete"` relationships of
`src/models.py` remove the post's Likes and Comments with it. -/
def delete_post (db : DB) (post_id : Nat) (session_cid : Option Nat) : DB × Except Err Unit :=
  match session_cid with
  | none => (db, Except.error Err.redirectRegister)
  | some consultant_id =>
      match db.posts.find? (fun p => p.id == post_id) with
      | none => (db, Except.error Err.forbidden)
      | some post =>
          if post.consultant_id ≠ consultant_id then (db, Except.error Err.forbidden)
          else
            ({ db with posts := db.posts.eraseP (fun p => p.id == post_id),
                       likes := db.likes.filter (fun l => !(l.post_id == post_id)),
                       comments := db.comments.filter (fun c => !(c.post_id == post_id)) },
             Except.ok ())

/-- Join key of `db.query(ConsultantPost).join(Consultant)`: the consultant
row owning a post (primary keys are unique, so `find?` is the row). -/
def consultantOf (db : DB) (p : ConsultantPost) : Option Consultant :=
  db.consultants.find? (fun c => c.id == p.consultant_id)

/-- Descending timestamp comparison of `order_by(ConsultantPost.timestamp.desc())`. -/
def postDesc (a b : ConsultantPost) : Bool :=
  decide (b.timestamp ≤ a.timestamp)

/-- Route `GET /consultants` of `src/app.py` (its query part): inner join of
posts with consultants, optional ILIKE filter on specialization, optional
ILIKE search over name/bio/content/specialization, ordered by timestamp
descending.  Python truthiness makes `None` and `""` both mean "no filter". -/
def consultants_page (db : DB) (q : Option String) (specialization : Option String) :
    List ConsultantPost :=
  let base := db.posts.filter (fun p => (consultantOf db p).isSome)
  let base1 :=
    match specialization with
    | none => base
    | some s =>
        if s == "" then base
        else base.filter (fun p =>
          match consultantOf db p with
          | some c => ilikeContains c.specialization s
          | none => false)
  let base2 :=
    match q with
    | none => base1
    | some qs =>
        if qs == "" then base1
        else base1.filter (fun p =>
          match consultantOf db p with
          | some c =>
              ilikeContains c.name qs ||
              (match c.bio with | some b => ilikeContains b qs | none => false) ||
              ilikeContains p.content qs ||
              ilikeContains c.specialization qs
          | none => false)
  base2.mergeSort postDesc

/-- One row of the rendered feed of `GET /consultants`: the post, its
consultant, the like count, the comments ascending by time, the follower
count. -/
structure FeedEntry where
  post : ConsultantPost
  consultant : Option Consultant
  likes_count : Nat
  comments : List Comment
  followers_count : Nat
deriving DecidableEq

/-- Enriched result list of `GET /consultants` (the per-post loop of the
route body). -/
def consultants_page_result (db : DB) (q : Option String) (specialization : Option String) :
    List FeedEntry :=
  (consultants_page db q specialization).map (fun p =>
    { post := p,
      consultant := consultantOf db p,
      likes_count := db.likes.countP (fun l => l.post_id == p.id),
      comments := (db.comments.filter (fun c => c.post_id == p.id)).mergeSort
        (fun a b => decide (a.timestamp ≤ b.timestamp)),
      followers_count := db.followers.countP (fun f => some f.consultant_id == (consultantOf db p).map Consultant.id) })

/-- Observed like state of a (post, actor) pair. -/
def isLiked (db : DB) (post_id : Nat) (user_id : Option Nat) : Bool :=
  (db.likes.find? (likeKey post_id user_id)).isSome

/-- Like count of a post (the `likes_count` query of the feed). -/
def likeCount (db : DB) (post_id : Nat) : Nat :=
  db.likes.countP (fun l => l.post_id == post_id)

/-- Observed follow state of a (consultant, actor) pair. -/
def isFollowing (db : DB) (consultant_id : Nat) (user_id : Option Nat) : Bool :=
  (db.followers.find? (followKey consultant_id user_id)).isSome

/-- Follower count of a consultant (the `followers_count` query of the feed). -/
def followerCount (db : DB) (consultant_id : Nat) : Nat :=
  db.followers.countP (fun f => f.consultant_id == consultant_id)

/-- Proof-layer abstraction of the toggle pattern shared by `like_post` and
`follow_consultant`: remove the first record matching the key, or append the
freshly built record when none matches. -/
def toggleBy {α : Type} (key : α → Bool) (mk : α) (l : List α) : List α :=
  match l.find? key with
  | some _ => l.eraseP key
  | none => l ++ [mk]

/-- The Like row `like_post` inserts when no existing like is found. -/
def newLike (db : DB) (post_id : Nat) (user_id : Option Nat) (now : Nat) : Like :=
  { id := db.next_id, user_id := user_id,
    consultant_id :=
      match db.posts.find? (fun p => p.id == post_id) with
      | some post => some post.consultant_id
      | none => none,
    post_id := post_id, timestamp := now }

/-- The Follower row `follow_consultant` inserts when no existing follow is found. -/
def newFollower (db : DB) (consultant_id : Nat) (user_id : Option Nat) (now : Nat) : Follower :=
  { id := db.next_id, user_id := user_id, consultant_id := consultant_id, timestamp := now }

/-- Concrete stand-in digest used only to evaluate witnesses (the theorems
about authentication hold for every digest function). -/
def shaId : String → String := fun s => s

/-- Concrete consultant for witness evaluation. -/
def C0 : Consultant :=
  { id := 1, name := "Dr A", email := "a@x.com", specialization := "Nutrition",
    bio := some "Helps with diet", media_path := none, media_type := none }

/-- Concrete post for witness evaluation. -/
def P0 : ConsultantPost :=
  { id := 1, consultant_id := 1, title := none, content := "Eat more fiber",
    media_path := none, media_type := none, timestamp := 10 }

/-- Concrete store with one consultant and one post, for witness evaluation. -/
def DB0 : DB :=
  { users := [], consultants := [C0], posts := [P0], likes := [], comments := [],
    followers := [], next_id := 100 }

/-- Concrete empty store, for the C2 counterexample. -/
def DBE : DB :=
  { users := [], consultants := [], posts := [], likes := [], comments := [],
    followers := [], next_id := 50 }

/-- Concrete empty store with fresh id 1, for the register/login witness. -/
def DB1 : DB :=
  { users := [], consultants := [], posts := [], likes := [], comments := [],
    followers := [], next_id := 1 }

/-- The user `register_user shaId DB1 "Bob@X.com " "pw"` creates. -/
def BobUser : User := { id := 1, email := "bob@x.com", hashed_password := "pw" }

/-- The store after that registration. -/
def DBreg : DB := { DB1 with users := [BobUser], next_id := 2 }

/-- Concrete registered user for the authentication witnesses. -/
def AliceUser : User := { id := 1, email := "alice@x.com", hashed_password := "secret" }

/-- Concrete store holding only `AliceUser`. -/
def AuthDB : DB :=
  { users := [AliceUser], consultants := [], posts := [], likes := [], comments := [],
    followers := [], next_id := 2 }

/-- Decomposition of a successful `find?`: the list splits at the found
element, everything before it fails the predicate, and `eraseP` removes it. -/
theorem find?_decomp {α : Type} (p : α → Bool) (l : List α) (x : α)
    (h : l.find? p = some x) :
    ∃ l₁ l₂, l = l₁ ++ x :: l₂ ∧ (∀ b ∈ l₁, p b = false) ∧ l.eraseP p = l₁ ++ l₂ := by
  induction l with
  | nil => simp at h
  | cons a l ih =>
    by_cases hpa : p a = true
    · rw [List.find?_cons_of_pos _ hpa] at h
      obtain rfl : a = x := Option.some.inj h
      exact ⟨[], l, by simp, by simp, by simp [List.eraseP_cons, hpa]⟩
    · rw [List.find?_cons_of_neg _ hpa] at h
      obtain ⟨l₁, l₂, heq, hall, herase⟩ := ih h
      have hpa' : p a = false := Bool.eq_false_iff.mpr hpa
      refine ⟨a :: l₁, l₂, by simp [heq], ?_, ?_⟩
      · intro b hb
        rcases List.mem_cons.mp hb with rfl | hb
        · exact hpa'
        · exact hall b hb
      · simp [List.eraseP_cons, hpa', herase]

/-- Appending one matching element to a list with no match and erasing by the
predicate gives the list back. -/
theorem eraseP_append_last {α : Type} (p : α → Bool) (l : List α) (a : α)
    (hl : ∀ x ∈ l, ¬ p x = true) (ha : p a = true) : (l ++ [a]).eraseP p = l := by
  induction l with
  | nil => simp [List.eraseP_cons, ha]
  | cons b l ih =>
    have hb : p b = false := Bool.eq_false_iff.mpr (hl b (by simp))
    simp only [List.cons_append, List.eraseP_cons, hb, cond_false]
    rw [ih (fun x hx => hl x (by simp [hx]))]

/-- When at most one element matches, erasing the match leaves no match. -/
theorem find?_eraseP_none {α : Type} (p : α → Bool) (l : List α)
    (h1 : l.countP p ≤ 1) : (l.eraseP p).find? p = none := by
  cases hf : l.find? p with
  | none =>
    rw [List.eraseP_of_forall_not (List.find?_eq_none.mp hf)]
    exact hf
  | some x =>
    obtain ⟨l₁, l₂, heq, hall, herase⟩ := find?_decomp p l x hf
    have hpx : p x = true := List.find?_some hf
    have hc1 : l₁.countP p = 0 := List.countP_eq_zero.mpr (fun a ha => by simp [hall a ha])
    have hc2 : l₂.countP p = 0 := by
      rw [heq, List.countP_append, List.countP_cons_of_pos _ _ hpx, hc1] at h1
      omega
    rw [herase, List.find?_eq_none]
    intro y hy
    rcases List.mem_append.mp hy with h | h
    · simp [hall y h]
    · exact List.countP_eq_zero.mp hc2 y h

/-- Erasing the element found by `p` lowers any count `q` by one exactly when
the erased element satisfies `q`. -/
theorem countP_eraseP_find? {α : Type} (p q : α → Bool) (l : List α) (x : α)
    (h : l.find? p = some x) :
    (l.eraseP p).countP q + (if q x then 1 else 0) = l.countP q := by
  obtain ⟨l₁, l₂, heq, hall, herase⟩ := find?_decomp p l x h
  rw [herase, heq, List.countP_append, List.countP_append, List.countP_cons]
  cases hqx : q x
  · simp [hqx]
  · simp [hqx]
    omega

/-- The likes table after `like_post` is the toggle of the likes table. -/
theorem like_post_likes_eq (db : DB) (pid : Nat) (uid : Option Nat) (t : Nat) :
    (like_post db pid uid t).1.likes = toggleBy (likeKey pid uid) (newLike db pid uid t) db.likes := by
  cases h : db.likes.find? (likeKey pid uid) <;> simp [like_post, toggleBy, newLike, h]

/-- The followers table after `follow_consultant` is the toggle of the
followers table. -/
theorem follow_consultant_followers_eq (db : DB) (cid : Nat) (uid : Option Nat) (t : Nat) :
    (follow_consultant db cid uid t).1.followers =
      toggleBy (followKey cid uid) (newFollower db cid uid t) db.followers := by
  cases h : db.followers.find? (followKey cid uid) <;>
    simp [follow_consultant, toggleBy, newFollower, h]

/-- A double toggle restores the presence of a matching record, provided at
most one record matched beforehand. -/
theorem toggleBy_isSome_pair {α : Type} (key : α → Bool) (l : List α) (mk₁ mk₂ : α)
    (hmk₁ : key mk₁ = true) (hmk₂ : key mk₂ = true) (hcnt : l.countP key ≤ 1) :
    ((toggleBy key mk₂ (toggleBy key mk₁ l)).find? key).isSome = (l.find? key).isSome := by
  cases h0 : l.find? key with
  | none =>
    have hall : ∀ x ∈ l, ¬ key x = true := List.find?_eq_none.mp h0
    have h1 : toggleBy key mk₁ l = l ++ [mk₁] := by simp [toggleBy, h0]
    have hf1 : (l ++ [mk₁]).find? key = some mk₁ := by
      rw [List.find?_append, h0]
      simp [List.find?_cons_of_pos _ hmk₁]
    have h2 : toggleBy key mk₂ (l ++ [mk₁]) = (l ++ [mk₁]).eraseP key := by
      simp [toggleBy, hf1]
    rw [h1, h2, eraseP_append_last key l mk₁ hall hmk₁, h0]
  | some x =>
    have h1 : toggleBy key mk₁ l = l.eraseP key := by simp [toggleBy, h0]
    have hf1 : (l.eraseP key).find? key = none := find?_eraseP_none key l hcnt
    have h2 : toggleBy key mk₂ (l.eraseP key) = l.eraseP key ++ [mk₂] := by
      simp [toggleBy, hf1]
    rw [h1, h2, List.find?_append, hf1]
    simp [List.find?_cons_of_pos _ hmk₂]

/-- A double toggle restores every count over the table, provided at most one
record matched beforehand and the inserted record counts whenever a matching
record counts. -/
theorem toggleBy_countP_pair {α : Type} (key q : α → Bool) (l : List α) (mk₁ mk₂ : α)
    (hmk₁ : key mk₁ = true) (hmk₂ : key mk₂ = true)
    (himp : ∀ z, key z = true → q z = true) (hcnt : l.countP key ≤ 1) :
    (toggleBy key mk₂ (toggleBy key mk₁ l)).countP q = l.countP q := by
  cases h0 : l.find? key with
  | none =>
    have hall : ∀ x ∈ l, ¬ key x = true := List.find?_eq_none.mp h0
    have h1 : toggleBy key mk₁ l = l ++ [mk₁] := by simp [toggleBy, h0]
    have hf1 : (l ++ [mk₁]).find? key = some mk₁ := by
      rw [List.find?_append, h0]
      simp [List.find?_cons_of_pos _ hmk₁]
    have h2 : toggleBy key mk₂ (l ++ [mk₁]) = (l ++ [mk₁]).eraseP key := by
      simp [toggleBy, hf1]
    rw [h1, h2, eraseP_append_last key l mk₁ hall hmk₁]
  | some x =>
    have hqx : q x = true := himp x (List.find?_some h0)
    have h1 : toggleBy key mk₁ l = l.eraseP key := by simp [toggleBy, h0]
    have hf1 : (l.eraseP key).find? key = none := find?_eraseP_none key l hcnt
    have h2 : toggleBy key mk₂ (l.eraseP key) = l.eraseP key ++ [mk₂] := by
      simp [toggleBy, hf1]
    have hstep := countP_eraseP_find? key q l x h0
    rw [h1, h2, List.countP_append, List.countP_cons_of_pos _ _ (himp mk₂ hmk₂)]
    simp only [List.countP_nil]
    simp [hqx] at hstep
    omega

/-- A toggle that inserts raises any count satisfied by the new record by one. -/
theorem toggleBy_countP_add {α : Type} (key q : α → Bool) (l : List α) (mk : α)
    (h0 : l.find? key = none) (hq : q mk = true) :
    (toggleBy key mk l).countP q = l.countP q + 1 := by
  simp [toggleBy, h0, List.countP_append, List.countP_cons_of_pos _ _ hq]

/-- A toggle that removes lowers any count satisfied by the removed record by
one. -/
theorem toggleBy_countP_sub {α : Type} (key q : α → Bool) (l : List α) (mk x : α)
    (h0 : l.find? key = some x) (hqx : q x = true) :
    (toggleBy key mk l).countP q + 1 = l.countP q := by
  have hstep := countP_eraseP_find? key q l x h0
  simp [hqx] at hstep
  have ht : toggleBy key mk l = l.eraseP key := by simp [toggleBy, h0]
  rw [ht]
  omega

/-- The record inserted by `like_post` matches the like key it was built for. -/
theorem likeKey_newLike (db : DB) (pid : Nat) (uid : Option Nat) (t : Nat) :
    likeKey pid uid (newLike db pid uid t) = true := by
  simp [likeKey, newLike]

/-- The record inserted by `like_post` counts toward the post's like count. -/
theorem newLike_post_id (db : DB) (pid : Nat) (uid : Option Nat) (t : Nat) :
    ((newLike db pid uid t).post_id == pid) = true := by
  simp [newLike]

/-- Any record matching the like key counts toward the post's like count. -/
theorem likeKey_imp_post_id (pid : Nat) (uid : Option Nat) :
    ∀ z : Like, likeKey pid uid z = true → (z.post_id == pid) = true := by
  intro z hz
  simp only [likeKey, Bool.and_eq_true] at hz
  exact hz.1

/-- The record inserted by `follow_consultant` matches the follow key. -/
theorem followKey_newFollower (db : DB) (cid : Nat) (uid : Option Nat) (t : Nat) :
    followKey cid uid (newFollower db cid uid t) = true := by
  simp [followKey, newFollower]

/-- The record inserted by `follow_consultant` counts toward the follower count. -/
theorem newFollower_cid (db : DB) (cid : Nat) (uid : Option Nat) (t : Nat) :
    ((newFollower db cid uid t).consultant_id == cid) = true := by
  simp [newFollower]

/-- Any record matching the follow key counts toward the follower count. -/
theorem followKey_imp_cid (cid : Nat) (uid : Option Nat) :
    ∀ z : Follower, followKey cid uid z = true → (z.consultant_id == cid) = true := by
  intro z hz
  simp only [followKey, Bool.and_eq_true] at hz
  exact hz.1

/-- C1: toggling a like twice in succession restores the like state of the
(post, actor) pair and the post's like count; one toggle moves the like
count by exactly +1 when no like existed and -1 when one did; and
`toggle_follow` satisfies the same toggle semantics on (consultant, actor)
pairs.  The hypotheses are the at-most-one-record-per-pair invariant of the
data model (§3 of the spec). -/
theorem toggle_like_toggle_follow_spec (db : DB) (pid cid : Nat) (uid : Option Nat)
    (t₁ t₂ : Nat)
    (hL : db.likes.countP (likeKey pid uid) ≤ 1)
    (hF : db.followers.countP (followKey cid uid) ≤ 1) :
    (isLiked (like_post (like_post db pid uid t₁).1 pid uid t₂).1 pid uid = isLiked db pid uid)
  ∧ (likeCount (like_post (like_post db pid uid t₁).1 pid uid t₂).1 pid = likeCount db pid)
  ∧ (isLiked db pid uid = false →
       likeCount (like_post db pid uid t₁).1 pid = likeCount db pid + 1)
  ∧ (isLiked db pid uid = true →
       likeCount (like_post db pid uid t₁).1 pid + 1 = likeCount db pid)
  ∧ (isFollowing (follow_consultant (follow_consultant db cid uid t₁).1 cid uid t₂).1 cid uid
       = isFollowing db cid uid)
  ∧ (followerCount (follow_consultant (follow_consultant db cid uid t₁).1 cid uid t₂).1 cid
       = followerCount db cid)
  ∧ (isFollowing db cid uid = false →
       followerCount (follow_consultant db cid uid t₁).1 cid = followerCount db cid + 1)
  ∧ (isFollowing db cid uid = true →
       followerCount (follow_consultant db cid uid t₁).1 cid + 1 = followerCount db cid) := by
  have hkey1 := likeKey_newLike db pid uid t₁
  have hkey2 := likeKey_newLike (like_post db pid uid t₁).1 pid uid t₂
  have hfkey1 := followKey_newFollower db cid uid t₁
  have hfkey2 := followKey_newFollower (follow_consultant db cid uid t₁).1 cid uid t₂
  refine ⟨?_, ?_, ?_, ?_, ?_, ?_, ?_, ?_⟩
  · simp only [isLiked]
    rw [like_post_likes_eq, like_post_likes_eq]
    exact toggleBy_isSome_pair _ _ _ _ hkey1 hkey2 hL
  · simp only [likeCount]
    rw [like_post_likes_eq, like_post_likes_eq]
    exact toggleBy_countP_pair _ _ _ _ _ hkey1 hkey2 (likeKey_imp_post_id pid uid) hL
  · intro h
    have h0 : db.likes.find? (likeKey pid uid) = none := by
      simpa [isLiked] using h
    simp only [likeCount]
    rw [like_post_likes_eq]
    exact toggleBy_countP_add _ _ _ _ h0 (newLike_post_id db pid uid t₁)
  · intro h
    have h1 : (db.likes.find? (likeKey pid uid)).isSome = true := by
      simpa [isLiked] using h
    obtain ⟨x, hx⟩ := Option.isSome_iff_exists.mp h1
    simp only [likeCount]
    rw [like_post_likes_eq]
    exact toggleBy_countP_sub _ _ _ _ x hx (likeKey_imp_post_id pid uid x (List.find?_some hx))
  · simp only [isFollowing]
    rw [follow_consultant_followers_eq, follow_consultant_followers_eq]
    exact toggleBy_isSome_pair _ _ _ _ hfkey1 hfkey2 hF
  · simp only [followerCount]
    rw [follow_consultant_followers_eq, follow_consultant_followers_eq]
    exact toggleBy_countP_pair _ _ _ _ _ hfkey1 hfkey2 (followKey_imp_cid cid uid) hF
  · intro h
    have h0 : db.followers.find? (followKey cid uid) = none := by
      simpa [isFollowing] using h
    simp only [followerCount]
    rw [follow_consultant_followers_eq]
    exact toggleBy_countP_add _ _ _ _ h0 (newFollower_cid db cid uid t₁)
  · intro h
    have h1 : (db.followers.find? (followKey cid uid)).isSome = true := by
      simpa [isFollowing] using h
    obtain ⟨x, hx⟩ := Option.isSome_iff_exists.mp h1
    simp only [followerCount]
    rw [follow_consultant_followers_eq]
    exact toggleBy_countP_sub _ _ _ _ x hx (followKey_imp_cid cid uid x (List.find?_some hx))

/-- Witness for C1 at the concrete store `DB0` (no likes, no follows yet). -/
theorem toggle_like_toggle_follow_spec_witness :
    (DB0.likes.countP (likeKey 1 (some 7)) ≤ 1
      ∧ DB0.followers.countP (followKey 1 (some 7)) ≤ 1)
  ∧ ((isLiked (like_post (like_post DB0 1 (some 7) 20).1 1 (some 7) 21).1 1 (some 7)
        = isLiked DB0 1 (some 7))
   ∧ (likeCount (like_post (like_post DB0 1 (some 7) 20).1 1 (some 7) 21).1 1 = likeCount DB0 1)
   ∧ (isLiked DB0 1 (some 7) = false →
        likeCount (like_post DB0 1 (some 7) 20).1 1 = likeCount DB0 1 + 1)
   ∧ (isLiked DB0 1 (some 7) = true →
        likeCount (like_post DB0 1 (some 7) 20).1 1 + 1 = likeCount DB0 1)
   ∧ (isFollowing (follow_consultant (follow_consultant DB0 1 (some 7) 20).1 1 (some 7) 21).1
        1 (some 7) = isFollowing DB0 1 (some 7))
   ∧ (followerCount (follow_consultant (follow_consultant DB0 1 (some 7) 20).1 1 (some 7) 21).1 1
        = followerCount DB0 1)
   ∧ (isFollowing DB0 1 (some 7) = false →
        followerCount (follow_consultant DB0 1 (some 7) 20).1 1 = followerCount DB0 1 + 1)
   ∧ (isFollowing DB0 1 (some 7) = true →
        followerCount (follow_consultant DB0 1 (some 7) 20).1 1 + 1 = followerCount DB0 1)) :=
  ⟨⟨by decide, by decide⟩,
   toggle_like_toggle_follow_spec DB0 1 1 (some 7) 20 21 (by decide) (by decide)⟩

/-- C2 counterexample: on the empty store, liking post 1 (which does not
exist) with no prior like does not fail at all — it inserts a Like row with
a null consultant reference and reports liked=true.  This contradicts the
claim that the call fails with NotFound and creates no Like record. -/
theorem like_post_missing_post_creates_like :
    DBE.posts.find? (fun p => p.id == 1) = none
  ∧ DBE.likes.find? (likeKey 1 (some 5)) = none
  ∧ (like_post DBE 1 (some 5) 0).1.likes =
      [{ id := 50, user_id := some 5, consultant_id := none, post_id := 1, timestamp := 0 }]
  ∧ (like_post DBE 1 (some 5) 0).2 = true := by
  decide

/-- C2 (amended): when no like exists for the pair, `like_post` never fails;
it inserts a Like whose consultant reference is null when the post does not
exist, and equal to the post's owning consultant when it does. -/
theorem like_post_consultant_ref (db : DB) (pid : Nat) (uid : Option Nat) (t : Nat)
    (hnolike : db.likes.find? (likeKey pid uid) = none) :
    (db.posts.find? (fun p => p.id == pid) = none →
       (like_post db pid uid t).1.likes = db.likes ++
         [{ id := db.next_id, user_id := uid, consultant_id := none,
            post_id := pid, timestamp := t }])
  ∧ (∀ post, db.posts.find? (fun p => p.id == pid) = some post →
       (like_post db pid uid t).1.likes = db.likes ++
         [{ id := db.next_id, user_id := uid, consultant_id := some post.consultant_id,
            post_id := pid, timestamp := t }]) := by
  constructor
  · intro h
    simp [like_post, hnolike, h]
  · intro post h
    simp [like_post, hnolike, h]

/-- Witness for the amended C2: a missing post (id 9 in `DB0`) yields a null
consultant reference, an existing post (id 1) copies its owner (id 1). -/
theorem like_post_consultant_ref_witness :
    (DB0.likes.find? (likeKey 9 (some 5)) = none
      ∧ DB0.posts.find? (fun p => p.id == 9) = none
      ∧ (like_post DB0 9 (some 5) 3).1.likes = DB0.likes ++
          [{ id := 100, user_id := some 5, consultant_id := none, post_id := 9, timestamp := 3 }])
  ∧ (DB0.likes.find? (likeKey 1 (some 5)) = none
      ∧ DB0.posts.find? (fun p => p.id == 1) = some P0
      ∧ (like_post DB0 1 (some 5) 3).1.likes = DB0.likes ++
          [{ id := 100, user_id := some 5, consultant_id := some P0.consultant_id,
             post_id := 1, timestamp := 3 }]) :=
  ⟨⟨by decide, by decide,
    (like_post_consultant_ref DB0 9 (some 5) 3 (by decide)).1 (by decide)⟩,
   ⟨by decide, by decide,
    (like_post_consultant_ref DB0 1 (some 5) 3 (by decide)).2 P0 (by decide)⟩⟩

/-- C3: a successful registration followed by authentication with the very
same credential strings returns the registered User (same id). -/
theorem register_then_login (sha256hex : String → String) (db db' : DB)
    (email password : String) (u : User)
    (hreg : register_user sha256hex db email password = (db', Except.ok u)) :
    login_user sha256hex db' email password = some u := by
  cases hfind : db.users.find? (fun v => v.email == normEmail email) with
  | some v =>
    simp [register_user, hfind] at hreg
  | none =>
    simp only [register_user, hfind, Prod.mk.injEq, Except.ok.injEq] at hreg
    obtain ⟨hdb', hu⟩ := hreg
    subst hdb'
    subst hu
    simp [login_user, hfind, verify_password, hash_password]

/-- Witness for C3: registering "Bob@X.com " / "pw" on the empty store then
logging in with the same strings returns the created user. -/
theorem register_then_login_witness :
    register_user shaId DB1 "Bob@X.com " "pw" = (DBreg, Except.ok BobUser)
  ∧ login_user shaId DBreg "Bob@X.com " "pw" = some BobUser :=
  ⟨by rfl, register_then_login shaId DB1 DBreg "Bob@X.com " "pw" BobUser (by rfl)⟩

/-- C4: registration fails with DuplicateEmail, and inserts nothing, whenever
some stored User's email equals the new email after trimming and lowercasing. -/
theorem register_duplicate_email (sha256hex : String → String) (db : DB)
    (email password : String) (u : User)
    (hmem : u ∈ db.users) (hem : u.email = normEmail email) :
    register_user sha256hex db email password = (db, Except.error Err.duplicateEmail) := by
  cases hfind : db.users.find? (fun v => v.email == normEmail email) with
  | none =>
    have hneg := List.find?_eq_none.mp hfind u hmem
    simp [hem] at hneg
  | some v =>
    simp [register_user, hfind]

/-- Witness for C4: " ALICE@x.com " collides with the stored "alice@x.com". -/
theorem register_duplicate_email_witness :
    (AliceUser ∈ AuthDB.users ∧ AliceUser.email = normEmail " ALICE@x.com ")
  ∧ register_user shaId AuthDB " ALICE@x.com " "whatever" =
      (AuthDB, Except.error Err.duplicateEmail) :=
  ⟨⟨by decide, by decide⟩,
   register_duplicate_email shaId AuthDB " ALICE@x.com " "whatever" AliceUser
     (by decide) (by decide)⟩

/-- C5: authentication returns null (the model is a total function into
`Option`, so no exception can be raised) on an unknown email and on a failed
password check alike, and the two outcomes are the very same value. -/
theorem login_user_mismatch_null (sha256hex : String → String) (db : DB)
    (email₁ password₁ email₂ password₂ : String) :
    (db.users.find? (fun v => v.email == normEmail email₁) = none →
       login_user sha256hex db email₁ password₁ = none)
  ∧ (∀ u, db.users.find? (fun v => v.email == normEmail email₂) = some u →
       verify_password sha256hex password₂ u.hashed_password = false →
       login_user sha256hex db email₂ password₂ = none)
  ∧ (db.users.find? (fun v => v.email == normEmail email₁) = none →
     ∀ u, db.users.find? (fun v => v.email == normEmail email₂) = some u →
       verify_password sha256hex password₂ u.hashed_password = false →
       login_user sha256hex db email₁ password₁ = login_user sha256hex db email₂ password₂) := by
  refine ⟨?_, ?_, ?_⟩
  · intro h
    simp [login_user, h]
  · intro u h hv
    simp [login_user, h, hv]
  · intro h₁ u h₂ hv
    simp [login_user, h₁, h₂, hv]

/-- Witness for C5: unknown email and wrong password both observe `none`. -/
theorem login_user_mismatch_null_witness :
    (AuthDB.users.find? (fun v => v.email == normEmail "nobody@x.com") = none
      ∧ AuthDB.users.find? (fun v => v.email == normEmail "alice@x.com") = some AliceUser
      ∧ verify_password shaId "wrong" AliceUser.hashed_password = false)
  ∧ (login_user shaId AuthDB "nobody@x.com" "pw" = none
      ∧ login_user shaId AuthDB "alice@x.com" "wrong" = none
      ∧ login_user shaId AuthDB "nobody@x.com" "pw" = login_user shaId AuthDB "alice@x.com" "wrong") :=
  ⟨⟨by decide, by decide, by decide⟩,
   ⟨(login_user_mismatch_null shaId AuthDB "nobody@x.com" "pw" "alice@x.com" "wrong").1
      (by decide),
    (login_user_mismatch_null shaId AuthDB "nobody@x.com" "pw" "alice@x.com" "wrong").2.1
      AliceUser (by decide) (by decide),
    (login_user_mismatch_null shaId AuthDB "nobody@x.com" "pw" "alice@x.com" "wrong").2.2
      (by decide) AliceUser (by decide) (by decide)⟩⟩

/-- C6: edit and delete by a consultant who is not the owner fail with
Forbidden and leave the whole store untouched — the post row (content, media
reference, media type, timestamp) and its dependent Likes and Comments are
exactly as before. -/
theorem edit_delete_forbidden (db : DB) (pid cid : Nat) (nb : String)
    (nm : Option String) (now : Nat) (post : ConsultantPost)
    (hp : db.posts.find? (fun p => p.id == pid) = some post)
    (hown : post.consultant_id ≠ cid) :
    edit_post db pid (some cid) nb nm now = (db, Except.error Err.forbidden)
  ∧ delete_post db pid (some cid) = (db, Except.error Err.forbidden) := by
  constructor
  · simp [edit_post, hp, hown]
  · simp [delete_post, hp, hown]

/-- Witness for C6: consultant 2 may neither edit nor delete post 1 of
consultant 1. -/
theorem edit_delete_forbidden_witness :
    (DB0.posts.find? (fun p => p.id == 1) = some P0 ∧ P0.consultant_id ≠ 2)
  ∧ (edit_post DB0 1 (some 2) "new" none 99 = (DB0, Except.error Err.forbidden)
      ∧ delete_post DB0 1 (some 2) = (DB0, Except.error Err.forbidden)) :=
  ⟨⟨by decide, by decide⟩,
   edit_delete_forbidden DB0 1 2 "new" none 99 P0 (by decide) (by decide)⟩

/-- Blank comment text is dropped before the post is even looked up (shared
helper for the two comment claims). -/
theorem comment_post_blank_dropped (db : DB) (pid : Nat) (uid : Option Nat)
    (text : String) (now : Nat) (h : stripStr text = "") :
    comment_post db pid uid text now = (db, CommentOutcome.dropped) := by
  simp [comment_post, h]

/-- C8: blank text creates no Comment and surfaces no error; non-blank text
on a missing post fails with NotFound; on success exactly one Comment is
appended and it carries the post's owning consultant. -/
theorem comment_post_spec (db : DB) (pid : Nat) (uid : Option Nat) (text : String)
    (now : Nat) :
    (stripStr text = "" → comment_post db pid uid text now = (db, CommentOutcome.dropped))
  ∧ (stripStr text ≠ "" → db.posts.find? (fun p => p.id == pid) = none →
       comment_post db pid uid text now = (db, CommentOutcome.notFound))
  ∧ (∀ post, stripStr text ≠ "" → db.posts.find? (fun p => p.id == pid) = some post →
       comment_post db pid uid text now =
         ({ db with
              comments := db.comments ++
                  [{ id := db.next_id, user_id := uid,
                     consultant_id := some post.consultant_id,
                     post_id := pid, comment_text := text, timestamp := now }],
              next_id := db.next_id + 1 },
          CommentOutcome.created
            { id := db.next_id, user_id := uid, consultant_id := some post.consultant_id,
              post_id := pid, comment_text := text, timestamp := now })) := by
  have h0 : stripStr "" = "" := by decide
  refine ⟨comment_post_blank_dropped db pid uid text now, ?_, ?_⟩
  · intro hne hfind
    have htext : text ≠ "" := by
      intro he
      rw [he] at hne
      exact hne h0
    simp [comment_post, htext, hne, hfind]
  · intro post hne hfind
    have htext : text ≠ "" := by
      intro he
      rw [he] at hne
      exact hne h0
    simp [comment_post, htext, hne, hfind]

/-- Witness for C8 at the concrete store DB0. -/
theorem comment_post_spec_witness :
    (stripStr "  " = ""
      ∧ stripStr "Great tip!" ≠ ""
      ∧ DB0.posts.find? (fun p => p.id == 99) = none
      ∧ DB0.posts.find? (fun p => p.id == 1) = some P0)
  ∧ (comment_post DB0 1 (some 7) "  " 5 = (DB0, CommentOutcome.dropped)
      ∧ comment_post DB0 99 (some 7) "Great tip!" 5 = (DB0, CommentOutcome.notFound)
      ∧ comment_post DB0 1 (some 7) "Great tip!" 5 =
          ({ DB0 with
               comments := DB0.comments ++
                   [{ id := 100, user_id := some 7,
                      consultant_id := some P0.consultant_id,
                      post_id := 1, comment_text := "Great tip!", timestamp := 5 }],
               next_id := 101 },
           CommentOutcome.created
             { id := 100, user_id := some 7, consultant_id := some P0.consultant_id,
               post_id := 1, comment_text := "Great tip!", timestamp := 5 })) :=
  ⟨⟨by decide, by decide, by decide, by decide⟩,
   ⟨(comment_post_spec DB0 1 (some 7) "  " 5).1 (by decide),
    (comment_post_spec DB0 99 (some 7) "Great tip!" 5).2.1 (by decide) (by decide),
    (comment_post_spec DB0 1 (some 7) "Great tip!" 5).2.2 P0 (by decide) (by decide)⟩⟩

/-- C9: the blank-text check precedes the post-existence check — blank text
is dropped even for a nonexistent post, and NotFound is observable only for
non-blank text. -/
theorem comment_post_blank_before_lookup (db : DB) (pid : Nat) (uid : Option Nat)
    (text : String) (now : Nat) :
    (stripStr text = "" → comment_post db pid uid text now = (db, CommentOutcome.dropped))
  ∧ ((comment_post db pid uid text now).2 = CommentOutcome.notFound → stripStr text ≠ "") := by
  refine ⟨comment_post_blank_dropped db pid uid text now, ?_⟩
  intro hout hblank
  rw [comment_post_blank_dropped db pid uid text now hblank] at hout
  simp at hout

/-- Witness for C9: a whitespace-only comment on the nonexistent post 99 is
silently dropped, while NotFound on post 99 implies the text was non-blank. -/
theorem comment_post_blank_before_lookup_witness :
    (stripStr " " = "" ∧ (comment_post DB0 99 (some 7) "hello" 5).2 = CommentOutcome.notFound)
  ∧ (comment_post DB0 99 (some 7) " " 5 = (DB0, CommentOutcome.dropped)
      ∧ stripStr "hello" ≠ "") :=
  ⟨⟨by decide, by decide⟩,
   ⟨(comment_post_blank_before_lookup DB0 99 (some 7) " " 5).1 (by decide),
    (comment_post_blank_before_lookup DB0 99 (some 7) "hello" 5).2 (by decide)⟩⟩

/-- Under unique consultant primary keys, the join lookup by id characterises
membership: it returns exactly the consultant row with that id. -/
theorem consultant_find?_unique (l : List Consultant) (k : Nat) (c : Consultant)
    (hu : l.Pairwise (fun a b => a.id ≠ b.id)) :
    l.find? (fun x => x.id == k) = some c ↔ c ∈ l ∧ c.id = k := by
  induction l with
  | nil => simp
  | cons a l ih =>
    obtain ⟨ha, hu'⟩ := List.pairwise_cons.mp hu
    by_cases hak : (a.id == k) = true
    · have hak' : a.id = k := by simpa using hak
      rw [List.find?_cons_of_pos (p := fun x : Consultant => x.id == k) _ hak]
      constructor
      · intro h
        obtain rfl := Option.some.inj h
        exact ⟨List.mem_cons_self a l, hak'⟩
      · rintro ⟨hc, hck⟩
        rcases List.mem_cons.mp hc with rfl | hc
        · rfl
        · exact absurd (hak'.trans hck.symm) (ha c hc)
    · have hak' : ¬ a.id = k := by simpa using hak
      rw [List.find?_cons_of_neg (p := fun x : Consultant => x.id == k) _ hak, ih hu']
      constructor
      · rintro ⟨hc, hck⟩
        exact ⟨List.mem_cons_of_mem a hc, hck⟩
      · rintro ⟨hc, hck⟩
        rcases List.mem_cons.mp hc with rfl | hc
        · exact absurd hck hak'
        · exact ⟨hc, hck⟩

/-- The descending timestamp comparison is transitive. -/
theorem postDesc_trans : ∀ a b c : ConsultantPost,
    postDesc a b = true → postDesc b c = true → postDesc a c = true := by
  intro a b c hab hbc
  simp only [postDesc, decide_eq_true_iff] at hab hbc ⊢
  omega

/-- The descending timestamp comparison is total. -/
theorem postDesc_total : ∀ a b : ConsultantPost, (postDesc a b || postDesc b a) = true := by
  intro a b
  simp only [postDesc, Bool.or_eq_true, decide_eq_true_iff]
  omega

/-- Characters below code point 97 are never produced by case folding from a
different character: `Char.toLower` maps A-Z into the range 97-122 and fixes
everything else. -/
theorem toLower_ne_low {c w : Char} (hwlt : w.toNat < 97) (h : c ≠ w) :
    Char.toLower c ≠ w := by
  by_cases hcond : c.toNat ≥ 65 ∧ c.toNat ≤ 90
  · have hv : Nat.isValidChar (c.toNat + 32) := Or.inl (by omega)
    have hq : (Char.ofNat (c.toNat + 32)).toNat = c.toNat + 32 := by
      unfold Char.ofNat
      rw [dif_pos hv]
      unfold Char.ofNatAux Char.toNat UInt32.toNat
      simp
    intro hctr
    rw [Char.toLower] at hctr
    simp only [if_pos hcond] at hctr
    rw [hctr] at hq
    omega
  · intro hctr
    rw [Char.toLower] at hctr
    simp only [if_neg hcond] at hctr
    exact h hctr

/-- Case folding preserves freedom from the SQL wildcard characters. -/
theorem lowerStr_no_wildcards (s : String)
    (hw : ∀ ch ∈ s.data, ch ≠ '%' ∧ ch ≠ '_') :
    ∀ ch ∈ (lowerStr s).data, ch ≠ '%' ∧ ch ≠ '_' := by
  intro ch hch
  simp only [lowerStr, List.mem_map] at hch
  obtain ⟨a, ha, rfl⟩ := hch
  exact ⟨toLower_ne_low (by decide) (hw a ha).1, toLower_ne_low (by decide) (hw a ha).2⟩

/-- A lone `%` pattern matches every text. -/
theorem likeMatch_pct_nil (t : List Char) : likeMatch ['%'] t = true := by
  have hmem : ([] : List Char) ∈ t.tails := (List.mem_tails _ _).mpr List.nil_suffix
  have hany : t.tails.any (fun s => likeMatch [] s) = true :=
    List.any_eq_true.mpr ⟨[], hmem, by simp [likeMatch]⟩
  simp only [likeMatch]
  rw [if_pos (by decide)]
  exact hany

/-- On a wildcard-free literal prefix, `pat%` matching is exactly "the text
starts with the literal". -/
theorem likeMatch_lit_append_pct (p : List Char)
    (hp : ∀ ch ∈ p, ch ≠ '%' ∧ ch ≠ '_') :
    ∀ t, likeMatch (p ++ ['%']) t = startsWithCL p t := by
  induction p with
  | nil =>
    intro t
    simp only [List.nil_append, startsWithCL]
    exact likeMatch_pct_nil t
  | cons c p ih =>
    intro t
    have hb1 : (c == '%') = false := beq_eq_false_iff_ne.mpr (hp c (by simp)).1
    have hb2 : (c == '_') = false := beq_eq_false_iff_ne.mpr (hp c (by simp)).2
    cases t with
    | nil => simp [likeMatch, startsWithCL, hb1]
    | cons d ts =>
      simp only [List.cons_append, likeMatch, startsWithCL, hb1, hb2,
        Bool.false_eq_true, if_false, List.append_eq]
      rw [ih (fun x hx => hp x (by simp [hx])) ts]

/-- Pointwise-equal predicates give equal `any`. -/
theorem any_congr_mem {α : Type} (l : List α) (f g : α → Bool)
    (h : ∀ a ∈ l, f a = g a) : l.any f = l.any g := by
  induction l with
  | nil => rfl
  | cons a t ih =>
    simp only [List.any_cons]
    rw [h a (by simp), ih (fun x hx => h x (by simp [hx]))]

/-- On filters free of SQL wildcards, the program's `ILIKE '%pat%'` test
coincides with literal case-insensitive substring containment. -/
theorem ilikeContains_eq_spec (hay pat : String)
    (hw : ∀ ch ∈ (lowerStr pat).data, ch ≠ '%' ∧ ch ≠ '_') :
    ilikeContains hay pat = specContainsCI hay pat := by
  have h1 : ilikeContains hay pat =
      (lowerStr hay).data.tails.any (fun s => likeMatch ((lowerStr pat).data ++ ['%']) s) := by
    simp [ilikeContains, likeMatch]
  rw [h1, specContainsCI]
  exact any_congr_mem _ _ _ (fun s _ => likeMatch_lit_append_pct _ hw s)

/-- C7 counterexample: the non-empty filter "nutri%" carries a live SQL
wildcard.  The program's ILIKE matches the specialization "Nutrition", so
post P0 is returned, yet no consultant's specialization contains "nutri%"
as a literal case-insensitive substring — the claimed characterisation of
the feed fails for this filter. -/
theorem consultants_page_wildcard_counterexample :
    P0 ∈ consultants_page DB0 none (some "nutri%")
  ∧ (∀ c ∈ DB0.consultants, specContainsCI c.specialization "nutri%" = false)
  ∧ ("nutri%" : String) ≠ "" := by
  refine ⟨?_, by decide, by decide⟩
  have hsb : (("nutri%" : String) == "") = false := by decide
  have hpage : consultants_page DB0 none (some "nutri%") =
      ((DB0.posts.filter (fun p => (consultantOf DB0 p).isSome)).filter (fun p =>
          match consultantOf DB0 p with
          | some c => ilikeContains c.specialization "nutri%"
          | none => false)).mergeSort postDesc := by
    simp [consultants_page, hsb]
  rw [hpage]
  exact ((List.mergeSort_perm _ _).mem_iff).mpr (by decide)

/-- C7 (amended): for every non-empty specialization filter that contains no
SQL wildcard character (`%` or `_`) — on such filters `ILIKE '%pat%'` is
exactly substring search — the feed contains exactly the posts whose owning
consultant's specialization contains the filter as a case-insensitive
substring, ordered by creation timestamp, most recent first.  The pairwise
hypothesis is the primary-key uniqueness of the consultants table. -/
theorem consultants_page_specialization_spec (db : DB) (s : String)
    (hs : s ≠ "")
    (hw : ∀ ch ∈ s.data, ch ≠ '%' ∧ ch ≠ '_')
    (hu : db.consultants.Pairwise (fun a b => a.id ≠ b.id)) :
    (∀ p, p ∈ consultants_page db none (some s) ↔
       (p ∈ db.posts ∧ ∃ c ∈ db.consultants, c.id = p.consultant_id ∧
          specContainsCI c.specialization s = true))
  ∧ List.Pairwise (fun a b => b.timestamp ≤ a.timestamp)
      (consultants_page db none (some s)) := by
  have hbridge : ∀ hay, ilikeContains hay s = specContainsCI hay s :=
    fun hay => ilikeContains_eq_spec hay s (lowerStr_no_wildcards s hw)
  have hsb : (s == "") = false := beq_eq_false_iff_ne.mpr hs
  have hpage : consultants_page db none (some s) =
      ((db.posts.filter (fun p => (consultantOf db p).isSome)).filter (fun p =>
          match consultantOf db p with
          | some c => ilikeContains c.specialization s
          | none => false)).mergeSort postDesc := by
    simp [consultants_page, hsb]
  constructor
  · intro p
    rw [hpage, (List.mergeSort_perm _ _).mem_iff, List.mem_filter, List.mem_filter]
    constructor
    · rintro ⟨⟨hmem, hsome⟩, hmatch⟩
      refine ⟨hmem, ?_⟩
      cases hc : consultantOf db p with
      | none => rw [hc] at hsome; simp at hsome
      | some c =>
          rw [hc] at hmatch
          have hmatch' : ilikeContains c.specialization s = true := hmatch
          rw [hbridge] at hmatch'
          have := (consultant_find?_unique db.consultants p.consultant_id c hu).mp hc
          exact ⟨c, this.1, this.2, hmatch'⟩
    · rintro ⟨hmem, c, hcmem, hcid, hcont⟩
      have hc : consultantOf db p = some c :=
        (consultant_find?_unique db.consultants p.consultant_id c hu).mpr ⟨hcmem, hcid⟩
      refine ⟨⟨hmem, by rw [hc]; rfl⟩, ?_⟩
      rw [hc]
      show ilikeContains c.specialization s = true
      rw [hbridge]
      exact hcont
  · rw [hpage]
    exact (List.sorted_mergeSort postDesc_trans postDesc_total _).imp
      (fun h => by simpa [postDesc] using h)

/-- Witness for the amended C7: the feed of `DB0` filtered by the
wildcard-free "nutri" (the stored specialization is "Nutrition"). -/
theorem consultants_page_specialization_spec_witness :
    ("nutri" ≠ ""
      ∧ (∀ ch ∈ ("nutri" : String).data, ch ≠ '%' ∧ ch ≠ '_')
      ∧ DB0.consultants.Pairwise (fun a b => a.id ≠ b.id))
  ∧ ((∀ p, p ∈ consultants_page DB0 none (some "nutri") ↔
        (p ∈ DB0.posts ∧ ∃ c ∈ DB0.consultants, c.id = p.consultant_id ∧
           specContainsCI c.specialization "nutri" = true))
     ∧ List.Pairwise (fun a b => b.timestamp ≤ a.timestamp)
         (consultants_page DB0 none (some "nutri"))) :=
  ⟨⟨by decide, by decide, by decide⟩,
   consultants_page_specialization_spec DB0 "nutri" (by decide) (by decide) (by decide)⟩

/-- After `edit_post` replaces the row with id `pid`, looking that id up
returns the replacement (which keeps the original id). -/
theorem find?_map_set (l : List ConsultantPost) (pid : Nat) (post post2 : ConsultantPost)
    (h : l.find? (fun p => p.id == pid) = some post) (hid : post2.id = post.id) :
    (l.map (fun p => if p.id == pid then post2 else p)).find? (fun p => p.id == pid)
      = some post2 := by
  induction l with
  | nil => simp at h
  | cons a l ih =>
    by_cases hak : (a.id == pid) = true
    · rw [List.find?_cons_of_pos (p := fun p : ConsultantPost => p.id == pid) _ hak] at h
      obtain rfl := Option.some.inj h
      have h2 : (post2.id == pid) = true := by rw [hid]; exact hak
      simp only [List.map_cons, if_pos hak]
      rw [List.find?_cons_of_pos (p := fun p : ConsultantPost => p.id == pid) _ h2]
    · rw [List.find?_cons_of_neg (p := fun p : ConsultantPost => p.id == pid) _ hak] at h
      simp only [List.map_cons, if_neg hak]
      rw [List.find?_cons_of_neg (p := fun p : ConsultantPost => p.id == pid) _ hak]
      exact ih h

/-- C10: a successful edit (here: content-only, no new media) succeeds and
stores the post with its creation timestamp overwritten by the edit time,
whatever it was before; and when the edit time is strictly later than every
other post's timestamp, the edited post is the head of the unfiltered feed. -/
theorem edit_post_resets_timestamp (db : DB) (pid cid : Nat) (nb : String) (now : Nat)
    (post : ConsultantPost)
    (hp : db.posts.find? (fun p => p.id == pid) = some post)
    (hown : post.consultant_id = cid)
    (hc : (db.consultants.find? (fun c => c.id == post.consultant_id)).isSome = true)
    (hmax : ∀ q ∈ db.posts, q.id ≠ pid → q.timestamp < now) :
    (edit_post db pid (some cid) nb none now).2 = Except.ok ()
  ∧ (edit_post db pid (some cid) nb none now).1.posts.find? (fun p => p.id == pid)
      = some { post with content := nb, timestamp := now }
  ∧ (consultants_page (edit_post db pid (some cid) nb none now).1 none none).head?
      = some { post with content := nb, timestamp := now } := by
  have hedit : edit_post db pid (some cid) nb none now =
      ({ db with
           posts := db.posts.map (fun p =>
             if p.id == pid then { post with content := nb, timestamp := now } else p) },
       Except.ok ()) := by
    simp [edit_post, hp, hown]
  have hpid : (post.id == pid) = true := by
    simpa using List.find?_some (p := fun p : ConsultantPost => p.id == pid) hp
  have hmem : post ∈ db.posts :=
    List.mem_of_find?_eq_some (p := fun p : ConsultantPost => p.id == pid) hp
  refine ⟨by rw [hedit], by rw [hedit]; exact find?_map_set db.posts pid post _ hp rfl, ?_⟩
  rw [hedit]
  set p2 : ConsultantPost := { post with content := nb, timestamp := now } with hp2def
  set posts' := db.posts.map (fun p => if p.id == pid then p2 else p) with hposts'
  set db' : DB := { db with posts := posts' } with hdb'
  have hp2mem : p2 ∈ posts' := List.mem_map.mpr ⟨post, hmem, by simp [hpid]⟩
  have hc2 : (consultantOf db' p2).isSome = true := hc
  have hfeed : consultants_page db' none none =
      (posts'.filter (fun p => (consultantOf db' p).isSome)).mergeSort postDesc := by
    simp [consultants_page]
  set base := posts'.filter (fun p => (consultantOf db' p).isSome) with hbasedef
  have hbase : p2 ∈ base := List.mem_filter.mpr ⟨hp2mem, hc2⟩
  have hmemL : p2 ∈ base.mergeSort postDesc :=
    ((List.mergeSort_perm base postDesc).mem_iff).mpr hbase
  rw [hfeed]
  cases hL : base.mergeSort postDesc with
  | nil => rw [hL] at hmemL; simp at hmemL
  | cons y t =>
    have hsorted := List.sorted_mergeSort postDesc_trans postDesc_total base
    rw [hL] at hsorted
    obtain ⟨hy_all, _⟩ := List.pairwise_cons.mp hsorted
    have hyL : y ∈ base.mergeSort postDesc := by rw [hL]; exact List.mem_cons_self y t
    have hybase : y ∈ base := ((List.mergeSort_perm base postDesc).mem_iff).mp hyL
    have hyposts : y ∈ posts' := (List.mem_filter.mp hybase).1
    obtain ⟨p₀, hp₀mem, hp₀eq⟩ := List.mem_map.mp hyposts
    by_cases hcond : (p₀.id == pid) = true
    · have hy2 : y = p2 := by rw [← hp₀eq]; simp [hcond]
      simp [hy2]
    · have hy : y = p₀ := by rw [← hp₀eq]; simp [hcond]
      have hlt : p₀.timestamp < now := hmax p₀ hp₀mem (by simpa using hcond)
      have hp2in : p2 ∈ y :: t := by rw [← hL]; exact hmemL
      have hts : p2.timestamp = now := rfl
      exfalso
      rcases List.mem_cons.mp hp2in with heq | hp2t
      · rw [heq, hy] at hts
        omega
      · have hdesc := hy_all p2 hp2t
        have hle : p2.timestamp ≤ y.timestamp := by
          simpa [postDesc] using hdesc
        rw [hts, hy] at hle
        omega

/-- Witness for C10: editing post 1 of `DB0` (timestamp 10) at time 99. -/
theorem edit_post_resets_timestamp_witness :
    (DB0.posts.find? (fun p => p.id == 1) = some P0
      ∧ P0.consultant_id = 1
      ∧ (DB0.consultants.find? (fun c => c.id == P0.consultant_id)).isSome = true
      ∧ (∀ q ∈ DB0.posts, q.id ≠ 1 → q.timestamp < 99))
  ∧ ((edit_post DB0 1 (some 1) "Updated" none 99).2 = Except.ok ()
      ∧ (edit_post DB0 1 (some 1) "Updated" none 99).1.posts.find? (fun p => p.id == 1)
          = some { P0 with content := "Updated", timestamp := 99 }
      ∧ (consultants_page (edit_post DB0 1 (some 1) "Updated" none 99).1 none none).head?
          = some { P0 with content := "Updated", timestamp := 99 }) :=
  ⟨⟨by decide, by decide, by decide, by decide⟩,
   edit_post_resets_timestamp DB0 1 1 "Updated" 99 P0
     (by decide) (by decide) (by decide) (by decide)⟩
